import Mathlib

/-!
Verification development for the Thanos block package
(src/pkg/block/block.go): the block transfer and metadata-consistency
protocol.  We shallowly embed the package: a JSON AST stands for the
bytes produced by encoding/json, local directories and the remote
bucket are finite maps, and the effectful procedures (WriteMetaFile,
ReadMetaFile, Upload, DownloadMeta, Finalize, IsBlockDir) become pure
Lean functions over explicit state, with the outcomes of the external
object-store primitives injected as parameters.
-/

/-- JSON values, at the abstraction level relevant to meta.json:
all numbers that occur in a Meta are integers. -/
inductive Json where
  | null : Json
  | num (n : Int) : Json
  | str (s : String) : Json
  | arr (elems : List Json) : Json
  | obj (fields : List (String × Json)) : Json

/-- Contents of a file or of a remote object: either well-formed JSON
text (given as its AST) or arbitrary bytes. -/
inductive FileData where
  | json (j : Json) : FileData
  | raw (s : String) : FileData

/-- Modelled fields of the embedded third-party tsdb block statistics
(tsdb.BlockStats; external dependency, schema per the spec).  Counts are
unsigned in Go, hence Nat. -/
structure BlockStats where
  numSamples : Nat
  numSeries : Nat
  numChunks : Nat
deriving DecidableEq, Repr

/-- Modelled fields of tsdb.BlockMetaCompaction (external dependency):
the compaction generation lineage. -/
structure BlockMetaCompaction where
  level : Int
  sources : List String
deriving DecidableEq, Repr

/-- Modelled fields of the embedded tsdb.BlockMeta (external
dependency, not in src/): identifier, time range, statistics and
compaction lineage, per the schema in the spec.  The ULID is modelled
by its canonical string rendering. -/
structure BlockMeta where
  ulid : String
  minTime : Int
  maxTime : Int
  stats : BlockStats
  compaction : BlockMetaCompaction
deriving DecidableEq, Repr

/-- ThanosMeta.Downsample from block.go. -/
structure ThanosDownsample where
  resolution : Int
deriving DecidableEq, Repr

/-- ThanosMeta from block.go.  A Go map can be nil, so the labels map
is an Option; the map itself is a list of key-value pairs. -/
structure ThanosMeta where
  labels : Option (List (String × String))
  downsample : ThanosDownsample
deriving DecidableEq, Repr

/-- Meta from block.go: the version field, the embedded tsdb
BlockMeta, and the Thanos-specific extension. -/
structure Meta where
  version : Int
  blockMeta : BlockMeta
  thanos : ThanosMeta
deriving DecidableEq, Repr

/-- First binding of a key in a JSON object, as Go json uses for
struct fields. -/
def getField (fields : List (String × Json)) (k : String) : Option Json :=
  match fields with
  | [] => none
  | (k2, v) :: rest => if k2 = k then some v else getField rest k

/-- Encoding of the labels map: a nil map encodes as JSON null,
otherwise an object of string values. -/
def encodeLabels : Option (List (String × String)) → Json
  | none => Json.null
  | some ps => Json.obj (ps.map fun p => (p.1, Json.str p.2))

/-- Encoding of Meta as produced by json.Encoder on the Meta struct:
the outer version field shadows the embedded tsdb one, the embedded
BlockMeta fields are flattened into the top-level object, and the
thanos extension is a nested object. -/
def encodeMeta (m : Meta) : Json :=
  Json.obj
    [ ("version", Json.num m.version)
    , ("ulid", Json.str m.blockMeta.ulid)
    , ("minTime", Json.num m.blockMeta.minTime)
    , ("maxTime", Json.num m.blockMeta.maxTime)
    , ("stats", Json.obj
        [ ("numSamples", Json.num (Int.ofNat m.blockMeta.stats.numSamples))
        , ("numSeries", Json.num (Int.ofNat m.blockMeta.stats.numSeries))
        , ("numChunks", Json.num (Int.ofNat m.blockMeta.stats.numChunks)) ])
    , ("compaction", Json.obj
        [ ("level", Json.num m.blockMeta.compaction.level)
        , ("sources", Json.arr (m.blockMeta.compaction.sources.map Json.str)) ])
    , ("thanos", Json.obj
        [ ("labels", encodeLabels m.thanos.labels)
        , ("downsample", Json.obj
            [ ("resolution", Json.num m.thanos.downsample.resolution) ]) ]) ]

/-- Decoding an integer struct field, Go style: an absent field or a
JSON null leaves the zero value, a number is taken as is, and any
other shape is a decode error. -/
def decodeIntField (fields : List (String × Json)) (k : String) : Option Int :=
  match getField fields k with
  | none => some 0
  | some Json.null => some 0
  | some (Json.num n) => some n
  | some _ => none

/-- Decoding an unsigned integer struct field: as decodeIntField, but
a negative number is a decode error (Go uint64). -/
def decodeNatField (fields : List (String × Json)) (k : String) : Option Nat :=
  match getField fields k with
  | none => some 0
  | some Json.null => some 0
  | some (Json.num n) => if 0 ≤ n then some n.toNat else none
  | some _ => none

/-- Decoding a string struct field, Go style. -/
def decodeStrField (fields : List (String × Json)) (k : String) : Option String :=
  match getField fields k with
  | none => some ""
  | some Json.null => some ""
  | some (Json.str s) => some s
  | some _ => none

/-- Decoding the bindings of a labels object: every value must be a
string. -/
def decodeLabelPairs : List (String × Json) → Option (List (String × String))
  | [] => some []
  | (k, Json.str v) :: rest => (decodeLabelPairs rest).map fun r => (k, v) :: r
  | _ => none

/-- Decoding the labels field: null or absent is the nil map. -/
def decodeLabels : Json → Option (Option (List (String × String)))
  | Json.null => some none
  | Json.obj fs => (decodeLabelPairs fs).map some
  | _ => none

/-- Decoding a list of ULID strings. -/
def decodeStrList : List Json → Option (List String)
  | [] => some []
  | Json.str s :: rest => (decodeStrList rest).map fun r => s :: r
  | _ => none

/-- Decoding the stats object. -/
def decodeStats : Json → Option BlockStats
  | Json.null => some ⟨0, 0, 0⟩
  | Json.obj fs => do
      let ns ← decodeNatField fs "numSamples"
      let nr ← decodeNatField fs "numSeries"
      let nc ← decodeNatField fs "numChunks"
      some ⟨ns, nr, nc⟩
  | _ => none

/-- Decoding the compaction object. -/
def decodeCompaction : Json → Option BlockMetaCompaction
  | Json.null => some ⟨0, []⟩
  | Json.obj fs => do
      let lv ← decodeIntField fs "level"
      let src ← match getField fs "sources" with
        | none => some []
        | some Json.null => some []
        | some (Json.arr xs) => decodeStrList xs
        | some _ => none
      some ⟨lv, src⟩
  | _ => none

/-- Decoding the thanos extension object. -/
def decodeThanos : Json → Option ThanosMeta
  | Json.null => some ⟨none, ⟨0⟩⟩
  | Json.obj fs => do
      let lbls ← match getField fs "labels" with
        | none => some none
        | some j => decodeLabels j
      let res ← match getField fs "downsample" with
        | none => some 0
        | some Json.null => some 0
        | some (Json.obj dfs) => decodeIntField dfs "resolution"
        | some _ => none
      some ⟨lbls, ⟨res⟩⟩
  | _ => none

/-- Decoding of a whole Meta from its JSON document, following Go
json.Unmarshal semantics on the Meta struct: the document must be an
object, typed fields either match or default when missing or null. -/
def decodeMeta : Json → Option Meta
  | Json.obj fs => do
      let v ← decodeIntField fs "version"
      let u ← decodeStrField fs "ulid"
      let mint ← decodeIntField fs "minTime"
      let maxt ← decodeIntField fs "maxTime"
      let stats ← match getField fs "stats" with
        | none => some ⟨0, 0, 0⟩
        | some j => decodeStats j
      let comp ← match getField fs "compaction" with
        | none => some ⟨0, []⟩
        | some j => decodeCompaction j
      let th ← match getField fs "thanos" with
        | none => some ⟨none, ⟨0⟩⟩
        | some j => decodeThanos j
      some ⟨v, ⟨u, mint, maxt, stats, comp⟩, th⟩
  | _ => none

/-! ## Local filesystem model and the Local Metadata Store -/

/-- MetaFilename from block.go. -/
def MetaFilename : String := "meta.json"

/-- IndexFilename from block.go. -/
def IndexFilename : String := "index"

/-- ChunksDirname from block.go. -/
def ChunksDirname : String := "chunks"

/-- DebugMetas from block.go, as path segments. -/
def DebugMetas : List String := ["debug", "metas"]

/-- The tombstones artifact removed by Finalize. -/
def tombstonesFilename : String := "tombstones"

/-- A local block directory: a finite map from file name to file
contents. -/
def LocalDir : Type := String → Option FileData

/-- Create or truncate-and-overwrite a file. -/
def setFile (d : LocalDir) (name : String) (data : FileData) : LocalDir :=
  fun q => if q = name then some data else d q

/-- Remove a file (os.Remove / os.RemoveAll on a file). -/
def removeFile (d : LocalDir) (name : String) : LocalDir :=
  fun q => if q = name then none else d q

/-- The temporary sibling used by WriteMetaFile. -/
def tmpMetaFilename : String := MetaFilename ++ ".tmp"

/-- The individual filesystem steps performed by WriteMetaFile and by
the renameFile it calls, in program order: os.Create of the temporary
file, the json encode into it, f.Close, then inside renameFile
os.RemoveAll of the destination, os.Rename, and the open/fsync/close
of the parent directory (no visible state change).  Modelling the
steps separately lets an interruption be any prefix of them. -/
def writeMetaSteps (m : Meta) : List (LocalDir → LocalDir) :=
  [ fun d => setFile d tmpMetaFilename (FileData.raw "")
  , fun d => setFile d tmpMetaFilename (FileData.json (encodeMeta m))
  , fun d => d
  , fun d => removeFile d MetaFilename
  , fun d => match d tmpMetaFilename with
      | some x => setFile (removeFile d tmpMetaFilename) MetaFilename x
      | none => d
  , fun d => d
  , fun d => d
  , fun d => d ]

/-- The state after WriteMetaFile is interrupted having completed
exactly the first k of its steps. -/
def writeMetaInterrupted (d : LocalDir) (m : Meta) (k : Nat) : LocalDir :=
  ((writeMetaSteps m).take k).foldl (fun s f => f s) d

/-- WriteMetaFile from block.go, run to completion. -/
def WriteMetaFile (d : LocalDir) (m : Meta) : LocalDir :=
  (writeMetaSteps m).foldl (fun s f => f s) d

/-- Reading and decoding a meta file from its on-disk contents,
mirroring the body of ReadMetaFile: a missing file is a read error,
non-JSON bytes or an ill-typed document is a decode error, and a
decoded meta whose version differs from 1 is the version-mismatch
error. -/
def readMetaData : Option FileData → Except String Meta
  | none => Except.error "open meta.json: no such file"
  | some (FileData.raw _) => Except.error "invalid character in meta.json"
  | some (FileData.json j) =>
      match decodeMeta j with
      | none => Except.error "cannot unmarshal meta.json"
      | some m =>
          if m.version = 1 then Except.ok m
          else Except.error "unexpected meta file version"

/-- ReadMetaFile from block.go. -/
def ReadMetaFile (d : LocalDir) : Except String Meta :=
  readMetaData (d MetaFilename)

/-! ## Identifier parsing -/

/-- The canonical Crockford base32 alphabet of ULID renderings. -/
def crockfordAlphabet : List Char := "0123456789ABCDEFGHJKMNPQRSTVWXYZ".toList

/-- Modelled from the spec: ulid.Parse from the external
github.com/oklog/ulid dependency (not in src/).  The spec defines the
identifier as a universally unique 128-bit value rendered as a
fixed-width (26 character) string over the canonical alphabet; a
string parses exactly when it is such a rendering, and the decoded
identifier is modelled by the canonical string itself. -/
def ulidParse (s : String) : Option String :=
  if s.length == 26 && s.data.all (fun c => crockfordAlphabet.contains c) then
    some s
  else none

/-- filepath.Base from the Go standard library (no volume names on
the target platform): the empty path gives a dot, trailing separators
are removed, everything up to the final separator is dropped, and a
path of only separators gives the separator. -/
def filepathBase (p : String) : String :=
  if p = "" then "."
  else if (p.data.reverse.dropWhile (fun c => c == '/')).takeWhile
      (fun c => !(c == '/')) = [] then "/"
  else String.mk ((p.data.reverse.dropWhile (fun c => c == '/')).takeWhile
    (fun c => !(c == '/'))).reverse

/-- IsBlockDir from block.go: parse the base name of the path; the
boolean result of the Go function is the isSome of the option. -/
def IsBlockDir (path : String) : Option String :=
  ulidParse (filepathBase path)

/-! ## Remote bucket model and the Transfer Coordinator -/

/-- A remote object key, as path segments (path.Join in the code). -/
def RemoteKey : Type := List String

/-- The write operations Upload issues against the bucket. -/
inductive RemoteOp where
  | put (key : List String) (data : FileData) : RemoteOp
  | deleteDir (dir : List String) : RemoteOp

/-- The remote bucket: a map from object key to contents. -/
def Bucket : Type := List String → Option FileData

/-- The bucket with no objects. -/
def emptyBucket : Bucket := fun _ => none

/-- Effect of one operation on the bucket.  objstore.DeleteDir
removes every object under the given directory prefix. -/
def applyOp (b : Bucket) : RemoteOp → Bucket
  | RemoteOp.put k data => fun q => if q = k then some data else b q
  | RemoteOp.deleteDir pfx => fun q => if pfx.isPrefixOf q then none else b q

/-- Effect of a sequence of operations, first to last. -/
def applyOps (b : Bucket) (ops : List RemoteOp) : Bucket :=
  ops.foldl applyOp b

/-- Delete from block.go: DeleteDir scoped to the identifier prefix,
never the bucket root. -/
def Delete (id : String) : RemoteOp :=
  RemoteOp.deleteDir [id]

/-- The labels emptiness test in Upload:
meta.Thanos.Labels == nil or len(meta.Thanos.Labels) == 0. -/
def labelsEmpty (t : ThanosMeta) : Bool :=
  match t.labels with
  | none => true
  | some l => l.length == 0

/-- The files of the local block directory that Upload touches. -/
structure BlockDirFs where
  metaFile : Option FileData
  indexFile : Option FileData
  chunkFiles : List (String × FileData)

/-- The local-side inputs of one Upload call: the result of os.Stat
on the path (statOk false models a stat error), whether the path is a
directory, its base name (df.Name()), and the directory contents. -/
structure UploadEnv where
  statOk : Bool
  isDir : Bool
  dirName : String
  fs : BlockDirFs

/-- Injected outcomes of the remote primitives during one Upload
call: whether the debug-meta upload succeeds, how many chunk files
UploadDir writes before failing (none means it succeeds), whether
the index and final meta uploads succeed, and whether the
compensating Delete succeeds. -/
structure StepOutcomes where
  debugMetaOk : Bool
  chunksFailAfter : Option Nat
  indexOk : Bool
  metaOk : Bool
  deleteOk : Bool

/-- A successful objstore.UploadFile writes one object; a failed one
(or one whose local source file is missing) writes nothing. -/
def uploadFileOp (ok : Bool) (src : Option FileData) (key : List String) :
    List RemoteOp :=
  match ok, src with
  | true, some data => [RemoteOp.put key data]
  | _, _ => []

/-- The puts of objstore.UploadDir for the given chunk files. -/
def chunkPuts (id : String) (files : List (String × FileData)) : List RemoteOp :=
  files.map fun f => RemoteOp.put [id, ChunksDirname, f.1] f.2

/-- cleanUp from block.go: run Delete with an uncancelable context;
if the delete itself fails, wrap the original error in the
partial-block warning, otherwise return the original error.  The
delete op is emitted only when it succeeds. -/
def cleanUp (deleteOk : Bool) (id : String) (e : String) :
    Except String Unit × List RemoteOp :=
  if deleteOk then (Except.error e, [Delete id])
  else (Except.error ("failed to clean block after upload issue: " ++ e), [])

/-- Upload from block.go, as the pair of its returned result and the
list of remote operations it performed, in order.  The control flow
mirrors the source, including its error handling slip: at the
debug-meta, index and final-meta uploads the source reads
if objstore.UploadFile(...); err != nil so the error returned by
UploadFile is discarded and the tested err is the stale nil left by
ReadMetaFile; those three failures are therefore silently ignored and
only a chunks-upload failure triggers cleanUp. -/
def Upload (env : UploadEnv) (out : StepOutcomes) :
    Except String Unit × List RemoteOp :=
  if env.statOk = false then (Except.error "stat bdir", [])
  else if env.isDir = false then (Except.error "is not a directory", [])
  else
    match ulidParse env.dirName with
    | none => (Except.error "not a block dir", [])
    | some id =>
      match readMetaData env.fs.metaFile with
      | Except.error e => (Except.error ("read meta: " ++ e), [])
      | Except.ok meta =>
        if labelsEmpty meta.thanos then
          (Except.error "empty external labels are not allowed for Thanos block", [])
        else
          -- Debug-meta upload; its failure is discarded (source slip).
          let ops1 := uploadFileOp out.debugMetaOk env.fs.metaFile
            (DebugMetas ++ [id ++ ".json"])
          match out.chunksFailAfter with
          | some k =>
            -- Chunks upload failed after k files; this error IS checked.
            let r := cleanUp out.deleteOk id "upload chunks"
            (r.1, ops1 ++ chunkPuts id (env.fs.chunkFiles.take k) ++ r.2)
          | none =>
            let ops2 := ops1 ++ chunkPuts id env.fs.chunkFiles
            -- Index upload; its failure is discarded (source slip).
            let ops3 := ops2 ++ uploadFileOp out.indexOk env.fs.indexFile
              [id, IndexFilename]
            -- Final meta upload, last; its failure is also discarded.
            let ops4 := ops3 ++ uploadFileOp out.metaOk env.fs.metaFile
              [id, MetaFilename]
            (Except.ok (), ops4)

/-- The disjunction of the Upload preconditions being violated, as a
boolean on the call inputs. -/
def uploadPrecondViolated (env : UploadEnv) : Bool :=
  !env.statOk || !env.isDir || (ulidParse env.dirName).isNone ||
    (match readMetaData env.fs.metaFile with
     | Except.error _ => true
     | Except.ok m => labelsEmpty m.thanos)

/-- True exactly on the error constructor. -/
def isErr {α : Type} : Except String α → Bool
  | Except.error _ => true
  | Except.ok _ => false

/-- DownloadMeta from block.go: Get the remote meta.json object and
decode it.  Note the source performs no version check here, unlike
ReadMetaFile. -/
def DownloadMeta (b : Bucket) (id : String) : Except String Meta :=
  match b [id, MetaFilename] with
  | none => Except.error ("meta.json bkt get for " ++ id)
  | some (FileData.raw _) => Except.error ("decode meta.json for block " ++ id)
  | some (FileData.json j) =>
      match decodeMeta j with
      | none => Except.error ("decode meta.json for block " ++ id)
      | some m => Except.ok m

/-! ## Finalize -/

/-- The meta update performed by Finalize: overwrite the labels and
the downsampling resolution, and when a downsampled source meta is
supplied copy its compaction lineage. -/
def finalizeMeta (m : Meta) (extLset : Option (List (String × String)))
    (resolution : Int) (downsampledMeta : Option BlockMeta) : Meta :=
  { m with
    thanos := { labels := extLset, downsample := ⟨resolution⟩ }
    blockMeta :=
      match downsampledMeta with
      | some ds => { m.blockMeta with compaction := ds.compaction }
      | none => m.blockMeta }

/-- Finalize from block.go, over the directory state: read the meta,
update it, write it back atomically, then os.Remove the tombstones
file — whose absence is an error (and the error return leaves the
already rewritten meta in place). -/
def Finalize (d : LocalDir) (extLset : Option (List (String × String)))
    (resolution : Int) (downsampledMeta : Option BlockMeta) :
    LocalDir × Except String Meta :=
  match ReadMetaFile d with
  | Except.error e => (d, Except.error ("read new meta: " ++ e))
  | Except.ok m =>
      let newMeta := finalizeMeta m extLset resolution downsampledMeta
      let d2 := WriteMetaFile d newMeta
      match d2 tombstonesFilename with
      | none => (d2, Except.error "remove tombstones")
      | some _ => (removeFile d2 tombstonesFilename, Except.ok newMeta)

/-! ## Concrete example data -/

/-- The identifier from the spec scenario. -/
def exampleId : String := "01ARZ3NDEKTSV4RRFFQ69G5FAV"

/-- A well-formed version-1 meta with non-empty labels. -/
def exampleMeta : Meta :=
  { version := 1
  , blockMeta :=
      { ulid := exampleId
      , minTime := 0
      , maxTime := 1000
      , stats := ⟨2, 1, 1⟩
      , compaction := ⟨1, [exampleId]⟩ }
  , thanos := { labels := some [("replica", "0")], downsample := ⟨0⟩ } }

/-- A local block directory holding the example meta, an index file
and one chunk file. -/
def exampleEnv : UploadEnv :=
  { statOk := true
  , isDir := true
  , dirName := exampleId
  , fs :=
      { metaFile := some (FileData.json (encodeMeta exampleMeta))
      , indexFile := some (FileData.raw "index-bytes")
      , chunkFiles := [("000001", FileData.raw "chunk-bytes")] } }

/-- All remote primitives succeed. -/
def outAllOk : StepOutcomes :=
  { debugMetaOk := true, chunksFailAfter := none
  , indexOk := true, metaOk := true, deleteOk := true }

/-- The index upload fails, everything else succeeds. -/
def outIndexFails : StepOutcomes :=
  { debugMetaOk := true, chunksFailAfter := none
  , indexOk := false, metaOk := true, deleteOk := true }

/-- The final meta upload fails, everything else succeeds. -/
def outMetaFails : StepOutcomes :=
  { debugMetaOk := true, chunksFailAfter := none
  , indexOk := true, metaOk := false, deleteOk := true }

/-- The debug-history meta upload fails, everything else succeeds. -/
def outDebugFails : StepOutcomes :=
  { debugMetaOk := false, chunksFailAfter := none
  , indexOk := true, metaOk := true, deleteOk := true }

/-- The example meta with different labels, used as the new content of
an interrupted write over an existing meta file. -/
def exampleMeta2 : Meta :=
  { exampleMeta with thanos := { labels := some [("replica", "1")], downsample := ⟨0⟩ } }

/-- The example meta with an empty (non-nil) labels map. -/
def metaNoLabels : Meta :=
  { exampleMeta with thanos := { labels := some [], downsample := ⟨0⟩ } }

/-- The example meta with an unsupported version field. -/
def metaV2 : Meta := { exampleMeta with version := 2 }

/-- A directory with no files. -/
def emptyDir : LocalDir := fun _ => none

/-- A directory holding only the example meta file. -/
def dirWithMeta : LocalDir :=
  fun q => if q = MetaFilename then some (FileData.json (encodeMeta exampleMeta)) else none

/-- A directory holding the example meta file and a tombstones
artifact. -/
def dirWithMetaAndTombstones : LocalDir :=
  fun q =>
    if q = MetaFilename then some (FileData.json (encodeMeta exampleMeta))
    else if q = tombstonesFilename then some (FileData.raw "") else none

/-- The example upload inputs, with the local meta replaced by one
whose labels map is empty. -/
def envNoLabels : UploadEnv :=
  { exampleEnv with fs :=
      { exampleEnv.fs with metaFile := some (FileData.json (encodeMeta metaNoLabels)) } }

/-- A bucket holding a published meta object with unsupported
version. -/
def bucketV2 : Bucket :=
  applyOp emptyBucket
    (RemoteOp.put [exampleId, MetaFilename] (FileData.json (encodeMeta metaV2)))

theorem decodeLabelPairs_encode (ps : List (String × String)) :
    decodeLabelPairs (ps.map fun p => (p.1, Json.str p.2)) = some ps := by
  induction ps with
  | nil => rfl
  | cons p rest ih =>
      cases p with
      | mk k v => simp [decodeLabelPairs, ih]

theorem decodeLabels_encode (l : Option (List (String × String))) :
    decodeLabels (encodeLabels l) = some l := by
  cases l with
  | none => rfl
  | some ps => simp [encodeLabels, decodeLabels, decodeLabelPairs_encode]

theorem decodeStrList_encode (xs : List String) :
    decodeStrList (xs.map Json.str) = some xs := by
  induction xs with
  | nil => rfl
  | cons x rest ih => simp [decodeStrList, ih]

/-- The AST-level codec round-trips: decoding an encoded Meta yields
the Meta back. -/
theorem decodeMeta_encodeMeta (m : Meta) :
    decodeMeta (encodeMeta m) = some m := by
  cases m with
  | mk v bm th =>
      cases bm with
      | mk u mint maxt st comp =>
          cases st with
          | mk ns nr nc =>
              cases comp with
              | mk lv src =>
                  cases th with
                  | mk lbls ds =>
                      cases ds with
                      | mk res =>
                          simp [encodeMeta, decodeMeta, getField,
                            decodeIntField, decodeStrField, decodeNatField,
                            decodeStats, decodeCompaction, decodeThanos,
                            decodeLabels_encode, decodeStrList_encode]

/-- After a completed WriteMetaFile the canonical meta file holds the
encoded meta, whatever the prior directory contents. -/
theorem writeMetaFile_meta_lookup (d : LocalDir) (m : Meta) :
    (WriteMetaFile d m) MetaFilename = some (FileData.json (encodeMeta m)) := rfl

/-- WriteMetaFile touches only the meta file and its temporary
sibling; in particular the tombstones file is unchanged. -/
theorem writeMetaFile_tombstones_lookup (d : LocalDir) (m : Meta) :
    (WriteMetaFile d m) tombstonesFilename = d tombstonesFilename := rfl

/-- A successfully read meta always has the supported version. -/
theorem readMetaData_ok_version (o : Option FileData) (m : Meta)
    (h : readMetaData o = Except.ok m) : m.version = 1 := by
  match o with
  | none => exact absurd h (by simp [readMetaData])
  | some (FileData.raw s) => exact absurd h (by simp [readMetaData])
  | some (FileData.json j) =>
      simp only [readMetaData] at h
      cases hd : decodeMeta j with
      | none => simp [hd] at h
      | some m0 =>
          simp only [hd] at h
          by_cases hv : m0.version = 1
          · simp only [hv, if_true, if_pos] at h
            simp at h
            rw [← h]; exact hv
          · simp [hv] at h

/-- The Finalize meta update is idempotent for fixed arguments. -/
theorem finalizeMeta_idem (m : Meta) (ls : Option (List (String × String)))
    (res : Int) (dsm : Option BlockMeta) :
    finalizeMeta (finalizeMeta m ls res dsm) ls res dsm = finalizeMeta m ls res dsm := by
  cases dsm <;> rfl

/-- On a nonempty string without path separators, filepath.Base is
the identity. -/
theorem filepathBase_no_sep (s : String) (h1 : s ≠ "") (h2 : ∀ c ∈ s.data, c ≠ '/') :
    filepathBase s = s := by
  have hd : s.data.reverse.dropWhile (fun c => c == '/') = s.data.reverse := by
    cases hrev : s.data.reverse with
    | nil => rfl
    | cons a as =>
        have ha : a ∈ s.data := by
          rw [← List.mem_reverse, hrev]; exact List.mem_cons_self a as
        have hb : (a == '/') = false := by simp [h2 a ha]
        simp [List.dropWhile_cons, hb]
  have htw : s.data.reverse.takeWhile (fun c => !(c == '/')) = s.data.reverse := by
    rw [List.takeWhile_eq_self_iff]
    intro x hx
    simp [h2 x (List.mem_reverse.mp hx)]
  have hdata : s.data ≠ [] := by
    intro hh
    apply h1
    cases s with
    | mk l => exact congrArg String.mk hh
  have hne : s.data.reverse ≠ [] := by
    simpa using hdata
  unfold filepathBase
  rw [if_neg h1, hd, htw, if_neg hne, List.reverse_reverse]

/-! ## Claim theorems -/

/-- Claim C1 (refuted by the code, a slip in the source): the claim
says the remote metadata object is never observable unless the chunks
and index objects are fully present.  Because the source discards the
error of the index upload (the stale err tested at that line is nil),
an upload whose index-file upload fails still uploads meta.json and
returns success: the resulting remote listing contains the metadata
object while the index object is absent, contradicting the claim and
the comment in the source that a block directory with a meta file can
be assumed complete. -/
theorem c1_meta_uploaded_despite_index_failure :
    (Upload exampleEnv outIndexFails).1 = Except.ok () ∧
    applyOps emptyBucket (Upload exampleEnv outIndexFails).2
      [exampleId, MetaFilename] = some (FileData.json (encodeMeta exampleMeta)) ∧
    applyOps emptyBucket (Upload exampleEnv outIndexFails).2
      [exampleId, IndexFilename] = none :=
  ⟨rfl, rfl, rfl⟩

/-- Claim C2 (refuted by the code, the same slip): the claim says a
failure of the chunks, index or final meta upload triggers a delete
of the whole remote prefix and an error return.  When the final
meta-file upload fails, the source discards the error: Upload returns
success, performs no compensating delete, and the chunks and index
objects remain listed under the block prefix. -/
theorem c2_no_delete_no_error_on_meta_upload_failure :
    (Upload exampleEnv outMetaFails).1 = Except.ok () ∧
    applyOps emptyBucket (Upload exampleEnv outMetaFails).2
      [exampleId, ChunksDirname, "000001"] = some (FileData.raw "chunk-bytes") ∧
    applyOps emptyBucket (Upload exampleEnv outMetaFails).2
      [exampleId, IndexFilename] = some (FileData.raw "index-bytes") :=
  ⟨rfl, rfl, rfl⟩

/-- Claim C3 (refuted by the code, the same slip): the claim says a
failure of the debug-history meta copy aborts the upload before any
remote write under the block prefix.  The source discards that error
too: with a failing debug-meta upload, Upload proceeds to write
chunks, index and meta.json under the block prefix and returns
success, while the debug-history object is absent. -/
theorem c3_upload_proceeds_after_debug_meta_failure :
    (Upload exampleEnv outDebugFails).1 = Except.ok () ∧
    applyOps emptyBucket (Upload exampleEnv outDebugFails).2
      [exampleId, MetaFilename] = some (FileData.json (encodeMeta exampleMeta)) ∧
    applyOps emptyBucket (Upload exampleEnv outDebugFails).2
      (DebugMetas ++ [exampleId ++ ".json"]) = none :=
  ⟨rfl, rfl, rfl⟩

/-- Claim C4, counterexample: interrupting WriteMetaFile after the
os.RemoveAll step of renameFile but before the os.Rename (four
completed steps) leaves the canonical meta file absent even though it
existed with old content before the write, contradicting the claim
that the file is then byte-identical to its pre-write content or
absent only if it never existed. -/
theorem c4_meta_absent_after_interrupted_write :
    (writeMetaInterrupted dirWithMeta exampleMeta2 4) MetaFilename = none ∧
    dirWithMeta MetaFilename = some (FileData.json (encodeMeta exampleMeta)) ∧
    (writeMetaInterrupted dirWithMeta exampleMeta2 4) MetaFilename ≠
      dirWithMeta MetaFilename :=
  ⟨rfl, rfl, fun h => nomatch h⟩

/-- Claim C4, amended: a write of meta m over directory d interrupted
after any number k of completed steps leaves the canonical meta file
either with its pre-write content, or absent, or with the fully new
content — never truncated or half-written; a reader sees one of those
three states. -/
theorem c4_interrupted_write_old_absent_or_new (d : LocalDir) (m : Meta) (k : Nat) :
    (writeMetaInterrupted d m k) MetaFilename = d MetaFilename ∨
    (writeMetaInterrupted d m k) MetaFilename = none ∨
    (writeMetaInterrupted d m k) MetaFilename =
      some (FileData.json (encodeMeta m)) := by
  match k with
  | 0 => exact Or.inl rfl
  | 1 => exact Or.inl rfl
  | 2 => exact Or.inl rfl
  | 3 => exact Or.inl rfl
  | 4 => exact Or.inr (Or.inl rfl)
  | 5 => exact Or.inr (Or.inr rfl)
  | 6 => exact Or.inr (Or.inr rfl)
  | 7 => exact Or.inr (Or.inr rfl)
  | n + 8 =>
      have h : writeMetaInterrupted d m (n + 8) = WriteMetaFile d m := by
        unfold writeMetaInterrupted WriteMetaFile
        rw [List.take_of_length_le (by simp [writeMetaSteps])]
      rw [h]
      exact Or.inr (Or.inr rfl)

/-- Claim C5: whenever an Upload precondition is violated — stat
fails, the path is not a directory, its name does not parse as a
block identifier, the local meta is unreadable, or the labels map is
empty or absent — Upload returns an error and performs no remote
write at all, regardless of the injected outcomes of the remote
primitives. -/
theorem c5_precondition_violation_no_remote_writes (env : UploadEnv)
    (out : StepOutcomes) (h : uploadPrecondViolated env = true) :
    isErr (Upload env out).1 = true ∧ (Upload env out).2 = [] := by
  unfold uploadPrecondViolated at h
  unfold Upload
  cases hs : env.statOk with
  | false => simp [hs, isErr]
  | true =>
      rw [hs] at h
      cases hi : env.isDir with
      | false => simp [hi, isErr]
      | true =>
          rw [hi] at h
          simp only [Bool.not_true, Bool.false_or] at h
          cases hp : ulidParse env.dirName with
          | none => simp [hp, isErr]
          | some id =>
              rw [hp] at h
              simp only [Option.isSome_some, Option.isNone_some, Bool.false_or] at h
              cases hr : readMetaData env.fs.metaFile with
              | error e => simp [hs, hi, hp, hr, isErr]
              | ok m =>
                  rw [hr] at h
                  simp at h
                  simp [hs, hi, hp, hr, h, isErr]

/-- Witness for C5: on a directory whose meta has an empty labels
map, Upload errors and writes nothing. -/
theorem c5_precondition_violation_no_remote_writes_witness :
    isErr (Upload envNoLabels outAllOk).1 = true ∧ (Upload envNoLabels outAllOk).2 = [] :=
  c5_precondition_violation_no_remote_writes envNoLabels outAllOk (by decide)

/-- Claim C6, counterexample: DownloadMeta on a remote meta object
whose version field is 2 returns it successfully instead of failing
with a version-mismatch error — the remote metadata-only fetch in the
source has no version check, refuting the claim that every metadata
read enforces the supported version. -/
theorem c6_downloadMeta_accepts_unsupported_version :
    DownloadMeta bucketV2 exampleId = Except.ok metaV2 ∧ metaV2.version ≠ 1 :=
  ⟨rfl, by decide⟩

/-- Claim C6, amended: the local metadata read fails with the
version-mismatch error whenever the decoded version differs from 1,
while the remote metadata-only fetch performs no version check and
returns whatever meta its JSON document decodes to. -/
theorem c6_version_check_local_read_only :
    (∀ j mv, decodeMeta j = some mv → mv.version ≠ 1 →
      readMetaData (some (FileData.json j)) =
        Except.error "unexpected meta file version") ∧
    (∀ b id j mv, b [id, MetaFilename] = some (FileData.json j) →
      decodeMeta j = some mv → DownloadMeta b id = Except.ok mv) := by
  constructor
  · intro j mv hd hv
    simp [readMetaData, hd, hv]
  · intro b id j mv hb hd
    simp [DownloadMeta, hb, hd]

/-- Witness for the amended C6, at the version-2 meta. -/
theorem c6_version_check_local_read_only_witness :
    readMetaData (some (FileData.json (encodeMeta metaV2))) =
      Except.error "unexpected meta file version" ∧
    DownloadMeta bucketV2 exampleId = Except.ok metaV2 :=
  ⟨c6_version_check_local_read_only.1 (encodeMeta metaV2) metaV2
      (decodeMeta_encodeMeta metaV2) (by decide),
   c6_version_check_local_read_only.2 bucketV2 exampleId (encodeMeta metaV2) metaV2
      rfl (decodeMeta_encodeMeta metaV2)⟩

/-- Claim C7: for every meta with the supported version, writing it
with WriteMetaFile and reading it back with ReadMetaFile succeeds and
returns a meta equal in every field, over any starting directory. -/
theorem c7_write_read_roundtrip (d : LocalDir) (m : Meta) (h : m.version = 1) :
    ReadMetaFile (WriteMetaFile d m) = Except.ok m := by
  show readMetaData ((WriteMetaFile d m) MetaFilename) = Except.ok m
  rw [writeMetaFile_meta_lookup]
  simp [readMetaData, decodeMeta_encodeMeta, h]

/-- Witness for C7 at the example meta over an empty directory. -/
theorem c7_write_read_roundtrip_witness :
    ReadMetaFile (WriteMetaFile emptyDir exampleMeta) = Except.ok exampleMeta :=
  c7_write_read_roundtrip emptyDir exampleMeta rfl

/-- Claim C8, counterexample: on a directory with a meta file and a
tombstones artifact, the first Finalize succeeds but the second call
with the same labels and resolution returns an error, because
os.Remove of the now-absent tombstones file fails — refuting the
claim that the second call succeeds. -/
theorem c8_second_finalize_returns_error :
    (Finalize dirWithMetaAndTombstones (some [("replica", "0")]) 0 none).2 =
      Except.ok (finalizeMeta exampleMeta (some [("replica", "0")]) 0 none) ∧
    (Finalize (Finalize dirWithMetaAndTombstones (some [("replica", "0")]) 0 none).1
      (some [("replica", "0")]) 0 none).2 = Except.error "remove tombstones" :=
  ⟨rfl, rfl⟩

/-- Claim C8, amended: after any successful Finalize, running
Finalize again with the same labels, resolution and downsample source
rewrites byte-identical metadata (the meta file contents are unchanged
by the second call) but returns an error, since tombstone removal
treats the absent tombstones file as a failure. -/
theorem c8_second_finalize_same_meta_but_error (d : LocalDir)
    (ls : Option (List (String × String))) (res : Int)
    (dsm : Option BlockMeta) (d1 : LocalDir) (m1 : Meta)
    (h : Finalize d ls res dsm = (d1, Except.ok m1)) :
    (Finalize d1 ls res dsm).2 = Except.error "remove tombstones" ∧
    (Finalize d1 ls res dsm).1 MetaFilename = d1 MetaFilename := by
  unfold Finalize at h
  cases hr : ReadMetaFile d with
  | error e => rw [hr] at h; simp at h
  | ok m =>
      rw [hr] at h
      simp only at h
      cases ht : (WriteMetaFile d (finalizeMeta m ls res dsm)) tombstonesFilename with
      | none => rw [ht] at h; simp at h
      | some x =>
          rw [ht] at h
          simp at h
          obtain ⟨hd1, hm1⟩ := h
          subst hd1
          have hv : m.version = 1 := readMetaData_ok_version (d MetaFilename) m hr
          have hv2 : (finalizeMeta m ls res dsm).version = 1 := hv
          have hm : (removeFile (WriteMetaFile d (finalizeMeta m ls res dsm))
              tombstonesFilename) MetaFilename =
              some (FileData.json (encodeMeta (finalizeMeta m ls res dsm))) := rfl
          have hread : ReadMetaFile (removeFile
              (WriteMetaFile d (finalizeMeta m ls res dsm)) tombstonesFilename) =
              Except.ok (finalizeMeta m ls res dsm) := by
            show readMetaData _ = _
            rw [hm]
            simp [readMetaData, decodeMeta_encodeMeta, hv2]
          have htomb : (WriteMetaFile (removeFile
              (WriteMetaFile d (finalizeMeta m ls res dsm)) tombstonesFilename)
              (finalizeMeta m ls res dsm)) tombstonesFilename = none := rfl
          simp [Finalize, hread, finalizeMeta_idem, htomb, hm, writeMetaFile_meta_lookup]

/-- Witness for the amended C8: the concrete double Finalize run. -/
theorem c8_second_finalize_same_meta_but_error_witness :
    (Finalize (Finalize dirWithMetaAndTombstones (some [("replica", "0")]) 0 none).1
      (some [("replica", "0")]) 0 none).2 = Except.error "remove tombstones" ∧
    (Finalize (Finalize dirWithMetaAndTombstones (some [("replica", "0")]) 0 none).1
      (some [("replica", "0")]) 0 none).1 MetaFilename =
      (Finalize dirWithMetaAndTombstones (some [("replica", "0")]) 0 none).1
        MetaFilename :=
  c8_second_finalize_same_meta_but_error dirWithMetaAndTombstones
    (some [("replica", "0")]) 0 none
    (Finalize dirWithMetaAndTombstones (some [("replica", "0")]) 0 none).1
    (finalizeMeta exampleMeta (some [("replica", "0")]) 0 none) rfl

/-- Claim C9, counterexample: the predicate is applied to the base
name of the path, so a string that is not itself a validly formatted
identifier (here one of length 28 containing a separator) is still
accepted when its final path element is valid — refuting the claim
that the predicate returns false for every string that is not a
validly formatted identifier. -/
theorem c9_isBlockDir_accepts_invalid_path_string :
    IsBlockDir "a/01ARZ3NDEKTSV4RRFFQ69G5FAV" =
      some "01ARZ3NDEKTSV4RRFFQ69G5FAV" ∧
    ("a/01ARZ3NDEKTSV4RRFFQ69G5FAV").length ≠ 26 :=
  ⟨rfl, by decide⟩

/-- Claim C9, amended: the predicate rejects the empty string, and on
every nonempty string without path separators it returns true exactly
when the string is a validly formatted identifier (length 26, all
characters canonical), in which case the decoded identifier is the
string itself; every other such string is rejected. -/
theorem c9_isBlockDir_on_separator_free_names :
    IsBlockDir "" = none ∧
    ∀ s : String, s ≠ "" → (∀ c ∈ s.data, c ≠ '/') →
      ((IsBlockDir s).isSome =
        (s.length == 26 && s.data.all fun c => crockfordAlphabet.contains c)) ∧
      (∀ t, IsBlockDir s = some t → t = s) := by
  refine ⟨rfl, ?_⟩
  intro s h1 h2
  have hb : filepathBase s = s := filepathBase_no_sep s h1 h2
  constructor
  · unfold IsBlockDir ulidParse
    rw [hb]
    cases hc : (s.length == 26 && s.data.all fun c => crockfordAlphabet.contains c) with
    | true => rfl
    | false => rfl
  · intro t ht
    unfold IsBlockDir ulidParse at ht
    rw [hb] at ht
    by_cases hc : (s.length == 26 && s.data.all fun c => crockfordAlphabet.contains c) = true
    · rw [if_pos hc] at ht
      injection ht with h3
      exact h3.symm
    · rw [if_neg hc] at ht
      exact absurd ht (by simp)

/-- Witness for the amended C9, at the example identifier. -/
theorem c9_isBlockDir_on_separator_free_names_witness :
    (IsBlockDir "01ARZ3NDEKTSV4RRFFQ69G5FAV").isSome = true := by
  have h := (c9_isBlockDir_on_separator_free_names.2 "01ARZ3NDEKTSV4RRFFQ69G5FAV"
    (by decide) (by decide)).1
  rw [h]
  decide

/-- Claim C10: when the directory meta is readable and no tombstones
file exists, Finalize returns an error from the tombstone-removal
step, yet the meta file has already been rewritten with the updated
labels, resolution and compaction lineage — an error return from
Finalize does not imply the directory is unchanged. -/
theorem c10_meta_rewritten_before_tombstone_error (d : LocalDir)
    (ls : Option (List (String × String))) (res : Int)
    (dsm : Option BlockMeta) (m : Meta)
    (h1 : ReadMetaFile d = Except.ok m) (h2 : d tombstonesFilename = none) :
    (Finalize d ls res dsm).2 = Except.error "remove tombstones" ∧
    (Finalize d ls res dsm).1 MetaFilename =
      some (FileData.json (encodeMeta (finalizeMeta m ls res dsm))) := by
  have ht : (WriteMetaFile d (finalizeMeta m ls res dsm)) tombstonesFilename = none := h2
  simp [Finalize, h1, ht, writeMetaFile_meta_lookup]

/-- Witness for C10 on the tombstone-free example directory. -/
theorem c10_meta_rewritten_before_tombstone_error_witness :
    (Finalize dirWithMeta (some [("replica", "0")]) 0 none).2 =
      Except.error "remove tombstones" ∧
    (Finalize dirWithMeta (some [("replica", "0")]) 0 none).1 MetaFilename =
      some (FileData.json (encodeMeta
        (finalizeMeta exampleMeta (some [("replica", "0")]) 0 none))) :=
  c10_meta_rewritten_before_tombstone_error dirWithMeta (some [("replica", "0")])
    0 none exampleMeta rfl rfl
